import Mathlib

/-!
Verification development for the Project3 CAVE renderer
(src/Project3/Project3/main.cpp).

Part 1 embeds the off-axis frustum mathematics of
ColorCubeScene::render (main.cpp lines 1033-1056) over the real
numbers: glm vectors and 4x4 matrices (column-major, as in glm), the
glm::frustum matrix, and the projection*view composite
glm::frustum(l,r,b,t,0.001,1000) * M * T that the code stores in
quadProjections.

Part 2 embeds the discrete per-frame interaction state machine:
ColorCubeScene::checkInput (lines 1238-1290) and the state-mutating
part of ColorCubeScene::render (lines 926-945, 964-973, 1016-1032),
over exact rationals, together with loadPPM (lines 636-687) and the
texture-loading control flow of the ColorCubeScene constructor
(lines 823-871).
-/

namespace Project3

/-- glm::vec3, components over a ring (instantiated at ℝ for geometry
and at ℚ for the interaction state machine). -/
structure Vec3 (R : Type) where
  x : R
  y : R
  z : R
deriving DecidableEq, Repr

/-- glm::vec4. -/
structure Vec4 (R : Type) where
  x : R
  y : R
  z : R
  w : R
deriving DecidableEq, Repr

/-- glm::mat4, stored column-major exactly as glm does: m[i] is the
i-th column. -/
structure Mat4 (R : Type) where
  c0 : Vec4 R
  c1 : Vec4 R
  c2 : Vec4 R
  c3 : Vec4 R
deriving DecidableEq, Repr

variable {R : Type} [CommRing R]

/-- Componentwise vector subtraction (glm operator-). -/
def Vec3.sub (a b : Vec3 R) : Vec3 R :=
  ⟨a.x - b.x, a.y - b.y, a.z - b.z⟩

/-- Componentwise vector addition (glm operator+). -/
def Vec3.add (a b : Vec3 R) : Vec3 R :=
  ⟨a.x + b.x, a.y + b.y, a.z + b.z⟩

/-- glm::dot for vec3. -/
def Vec3.dot (a b : Vec3 R) : R :=
  a.x * b.x + a.y * b.y + a.z * b.z

/-- glm::cross. -/
def Vec3.cross (a b : Vec3 R) : Vec3 R :=
  ⟨a.y * b.z - a.z * b.y, a.z * b.x - a.x * b.z, a.x * b.y - a.y * b.x⟩

/-- Scale a vec4 by a scalar. -/
def Vec4.smul (k : R) (v : Vec4 R) : Vec4 R :=
  ⟨k * v.x, k * v.y, k * v.z, k * v.w⟩

/-- Componentwise vec4 addition. -/
def Vec4.add (a b : Vec4 R) : Vec4 R :=
  ⟨a.x + b.x, a.y + b.y, a.z + b.z, a.w + b.w⟩

/-- Matrix * vector with glm's column-major convention:
M * v = v.x*col0 + v.y*col1 + v.z*col2 + v.w*col3. -/
def Mat4.mulVec (m : Mat4 R) (v : Vec4 R) : Vec4 R :=
  (Vec4.smul v.x m.c0).add ((Vec4.smul v.y m.c1).add
    ((Vec4.smul v.z m.c2).add (Vec4.smul v.w m.c3)))

/-- Matrix product (glm operator*): column j of A*B is A * (col j of B). -/
def Mat4.mul (a b : Mat4 R) : Mat4 R :=
  ⟨a.mulVec b.c0, a.mulVec b.c1, a.mulVec b.c2, a.mulVec b.c3⟩

/-- glm::transpose. -/
def Mat4.transpose (m : Mat4 R) : Mat4 R :=
  ⟨⟨m.c0.x, m.c1.x, m.c2.x, m.c3.x⟩,
   ⟨m.c0.y, m.c1.y, m.c2.y, m.c3.y⟩,
   ⟨m.c0.z, m.c1.z, m.c2.z, m.c3.z⟩,
   ⟨m.c0.w, m.c1.w, m.c2.w, m.c3.w⟩⟩

/-- mat4(1.0f): the identity matrix. -/
def mat4id : Mat4 R :=
  ⟨⟨1, 0, 0, 0⟩, ⟨0, 1, 0, 0⟩, ⟨0, 0, 1, 0⟩, ⟨0, 0, 0, 1⟩⟩

end Project3

namespace Project3

/-! ### Off-axis frustum mathematics over ℝ

Embedding of main.cpp lines 1037-1056 (identical code is repeated for
the right wall at 1059-1082 and the floor at 1085-1108, so one
definition parameterized by the quad corners covers all three).
The corners p0, p1, p3 stand for wallVerts[0], wallVerts[1],
wallVerts[3]; e is eyePos[eye]. -/

/-- glm::normalize v = v / sqrt(dot(v,v)). -/
noncomputable def gnormalize (v : Vec3 ℝ) : Vec3 ℝ :=
  ⟨v.x / Real.sqrt (v.dot v), v.y / Real.sqrt (v.dot v),
   v.z / Real.sqrt (v.dot v)⟩

/-- vec3 va = wallVerts[0] - eyePos[eye] (line 1037). -/
def vaOf (p0 e : Vec3 ℝ) : Vec3 ℝ := p0.sub e

/-- vec3 vb = wallVerts[1] - eyePos[eye] (line 1038). -/
def vbOf (p1 e : Vec3 ℝ) : Vec3 ℝ := p1.sub e

/-- vec3 vc = wallVerts[3] - eyePos[eye] (line 1039). -/
def vcOf (p3 e : Vec3 ℝ) : Vec3 ℝ := p3.sub e

/-- vec3 vr = glm::normalize(wallVerts[1] - wallVerts[0]) (line 1041). -/
noncomputable def vrOf (p0 p1 : Vec3 ℝ) : Vec3 ℝ := gnormalize (p1.sub p0)

/-- vec3 vu = glm::normalize(wallVerts[3] - wallVerts[0]) (line 1042). -/
noncomputable def vuOf (p0 p3 : Vec3 ℝ) : Vec3 ℝ := gnormalize (p3.sub p0)

/-- vec3 vn = glm::normalize(glm::cross(vr, vu)) (line 1043). -/
noncomputable def vnOf (p0 p1 p3 : Vec3 ℝ) : Vec3 ℝ :=
  gnormalize ((vrOf p0 p1).cross (vuOf p0 p3))

/-- float dist = -glm::dot(vn, va) (line 1044). -/
noncomputable def distOf (p0 p1 p3 e : Vec3 ℝ) : ℝ :=
  -((vnOf p0 p1 p3).dot (vaOf p0 e))

/-- float l = glm::dot(vr, va) * 0.001f / dist (line 1045). -/
noncomputable def lOf (p0 p1 p3 e : Vec3 ℝ) : ℝ :=
  (vrOf p0 p1).dot (vaOf p0 e) * 0.001 / distOf p0 p1 p3 e

/-- float r = glm::dot(vr, vb) * 0.001f / dist (line 1046). -/
noncomputable def rOf (p0 p1 p3 e : Vec3 ℝ) : ℝ :=
  (vrOf p0 p1).dot (vbOf p1 e) * 0.001 / distOf p0 p1 p3 e

/-- float b = glm::dot(vu, va) * 0.001f / dist (line 1047). -/
noncomputable def bOf (p0 p1 p3 e : Vec3 ℝ) : ℝ :=
  (vuOf p0 p3).dot (vaOf p0 e) * 0.001 / distOf p0 p1 p3 e

/-- float t = glm::dot(vu, vc) * 0.001f / dist (line 1048). -/
noncomputable def tOf (p0 p1 p3 e : Vec3 ℝ) : ℝ :=
  (vuOf p0 p3).dot (vcOf p3 e) * 0.001 / distOf p0 p1 p3 e

/-- glm::frustum(l, r, b, t, n, f), column-major as in glm's source:
Result[0][0]=2n/(r-l), Result[1][1]=2n/(t-b), Result[2][0]=(r+l)/(r-l),
Result[2][1]=(t+b)/(t-b), Result[2][2]=-(f+n)/(f-n), Result[2][3]=-1,
Result[3][2]=-2fn/(f-n). -/
noncomputable def glmFrustum (l r b t n f : ℝ) : Mat4 ℝ :=
  ⟨⟨2 * n / (r - l), 0, 0, 0⟩,
   ⟨0, 2 * n / (t - b), 0, 0⟩,
   ⟨(r + l) / (r - l), (t + b) / (t - b), -((f + n) / (f - n)), -1⟩,
   ⟨0, 0, -(2 * f * n / (f - n)), 0⟩⟩

/-- The view-rotation matrix of lines 1049-1053: start from mat4(1.0),
set columns 0..2 to (vr,0), (vu,0), (vn,0), then transpose. -/
noncomputable def solveM (p0 p1 p3 : Vec3 ℝ) : Mat4 ℝ :=
  Mat4.transpose
    ⟨⟨(vrOf p0 p1).x, (vrOf p0 p1).y, (vrOf p0 p1).z, 0⟩,
     ⟨(vuOf p0 p3).x, (vuOf p0 p3).y, (vuOf p0 p3).z, 0⟩,
     ⟨(vnOf p0 p1 p3).x, (vnOf p0 p1 p3).y, (vnOf p0 p1 p3).z, 0⟩,
     ⟨0, 0, 0, 1⟩⟩

/-- The view-translation matrix of lines 1054-1055: mat4(1.0) with
column 3 set to (-e.x, -e.y, -e.z, 1). -/
def solveT (e : Vec3 ℝ) : Mat4 ℝ :=
  ⟨⟨1, 0, 0, 0⟩, ⟨0, 1, 0, 0⟩, ⟨0, 0, 1, 0⟩, ⟨-e.x, -e.y, -e.z, 1⟩⟩

/-- quadProjections[i] = glm::frustum(l, r, b, t, 0.001f, 1000.f) * M * T
(line 1056). -/
noncomputable def quadProjection (p0 p1 p3 e : Vec3 ℝ) : Mat4 ℝ :=
  ((glmFrustum (lOf p0 p1 p3 e) (rOf p0 p1 p3 e) (bOf p0 p1 p3 e)
      (tOf p0 p1 p3 e) 0.001 1000).mul (solveM p0 p1 p3)).mul (solveT e)

/-- Clip-space coordinates of a world point under the solver's
composite matrix: quadProjection * (p, 1). -/
noncomputable def clipPoint (p0 p1 p3 e p : Vec3 ℝ) : Vec4 ℝ :=
  (quadProjection p0 p1 p3 e).mulVec ⟨p.x, p.y, p.z, 1⟩

end Project3

namespace Project3

/-! ### Interaction state machine over ℚ

Embedding of ColorCubeScene::checkInput (main.cpp lines 1238-1290) and
the state mutations performed by ColorCubeScene::render (lines
926-945, 964-973, 1016-1032).  Float values are modelled as exact
rationals; float literals of the source (0.01f, 0.2f, 0.0325f, 0.5f)
become the corresponding rational literals. -/

/-- The fields of ovrInputState that checkInput and render read:
the two thumbsticks, the A/B/X/left-thumbstick buttons, and the right
hand trigger. -/
structure InputSample where
  thumbLX : ℚ
  thumbLY : ℚ
  thumbRX : ℚ
  thumbRY : ℚ
  buttonA : Bool
  buttonB : Bool
  buttonX : Bool
  buttonLThumb : Bool
  handTriggerR : ℚ
deriving DecidableEq, Repr

/-- The mutable members of ColorCubeScene that persist across frames
and are touched by checkInput/render (declarations at main.cpp lines
757-758, 786-799).  eyePosL/eyePosR are eyePos[0]/eyePos[1]. -/
structure SceneState where
  boxScale : ℚ
  boxtransform : Mat4 ℚ
  track : Bool
  debug : Bool
  broken : Bool
  A_down : Bool
  B_down : Bool
  X_down : Bool
  triggerPressedR : Bool
  viewFromController : Bool
  eyePosL : Vec3 ℚ
  eyePosR : Vec3 ℚ
  posOnly : Mat4 ℚ
deriving DecidableEq, Repr

/-- glm::translate(M, v) = M * (identity with column 3 = (v, 1)). -/
def glmTranslate (m : Mat4 ℚ) (v : Vec3 ℚ) : Mat4 ℚ :=
  m.mul ⟨⟨1, 0, 0, 0⟩, ⟨0, 1, 0, 0⟩, ⟨0, 0, 1, 0⟩, ⟨v.x, v.y, v.z, 1⟩⟩

/-- Initial member values of ColorCubeScene: boxScale = 0.2f (line
758), boxtransform = glm::translate(mat4(), vec3(0, 0, -1)) (line
818), posOnly = mat4(1.0f) (line 786), track = true, debug = broken =
false, latches and trigger flags false (lines 788-799), eyePos
default-initialized to zero vectors (line 776, glm zero-initializing
value construction). -/
def initScene : SceneState :=
  { boxScale := 0.2
    boxtransform := glmTranslate mat4id ⟨0, 0, -1⟩
    track := true
    debug := false
    broken := false
    A_down := false
    B_down := false
    X_down := false
    triggerPressedR := false
    viewFromController := false
    eyePosL := ⟨0, 0, 0⟩
    eyePosR := ⟨0, 0, 0⟩
    posOnly := mat4id }

/-- Lines 1243-1247: on left thumbstick x movement, temp = boxScale +
thumbstick.x * 0.01f; boxScale becomes temp only if
0.01f < temp && temp < 1.0f. -/
def scalePhase (s : SceneState) (i : InputSample) : SceneState :=
  if i.thumbLX ≠ 0 then
    let temp := s.boxScale + i.thumbLX * 0.01
    if 0.01 < temp ∧ temp < 1 then { s with boxScale := temp } else s
  else s

/-- Lines 1250-1252: on left thumbstick press, boxScale = 0.2f. -/
def resetPhase (s : SceneState) (i : InputSample) : SceneState :=
  if i.buttonLThumb then { s with boxScale := 0.2 } else s

/-- Lines 1255-1259: right thumbstick / left thumbstick y translate
boxtransform incrementally. -/
def translatePhase (s : SceneState) (i : InputSample) : SceneState :=
  if i.thumbRX ≠ 0 ∨ i.thumbRY ≠ 0 ∨ i.thumbLY ≠ 0 then
    { s with boxtransform := (glmTranslate s.boxtransform
        ⟨i.thumbRX * 0.01, i.thumbRY * 0.01, i.thumbLY * (-0.01)⟩) }
  else s

/-- Lines 1262-1269: B edge-trigger toggling track. -/
def bPhase (s : SceneState) (i : InputSample) : SceneState :=
  let s1 := if i.buttonB ∧ ¬s.B_down then
    { s with B_down := true, track := !s.track } else s
  if ¬i.buttonB then { s1 with B_down := false } else s1

/-- Lines 1272-1278: A edge-trigger toggling debug. -/
def aPhase (s : SceneState) (i : InputSample) : SceneState :=
  let s1 := if i.buttonA ∧ ¬s.A_down then
    { s with A_down := true, debug := !s.debug } else s
  if ¬i.buttonA then { s1 with A_down := false } else s1

/-- Lines 1281-1287: X edge-trigger toggling broken. -/
def xPhase (s : SceneState) (i : InputSample) : SceneState :=
  let s1 := if i.buttonX ∧ ¬s.X_down then
    { s with X_down := true, broken := !s.broken } else s
  if ¬i.buttonX then { s1 with X_down := false } else s1

/-- ColorCubeScene::checkInput (lines 1238-1290): the whole body is
guarded by OVR_SUCCESS(ovr_GetInputState(...)); a failed query (none)
leaves the state untouched. -/
def checkInput (s : SceneState) (q : Option InputSample) : SceneState :=
  match q with
  | none => s
  | some i => xPhase (aPhase (bPhase (translatePhase (resetPhase (scalePhase s i) i) i) i) i) i

/-- Per-frame external inputs consumed by render: the two
ovr_GetInputState results (checkInput's at line 1240, render's at line
940), the right hand pose position, the per-eye head modelview, the
render-pose eye positions, and which eye is being rendered (false =
left, true = right). -/
structure FrameInput where
  checkQuery : Option InputSample
  renderQuery : Option InputSample
  handPosR : Vec3 ℚ
  modelview : Mat4 ℚ
  renderPosL : Vec3 ℚ
  renderPosR : Vec3 ℚ
  eye : Bool
deriving DecidableEq, Repr

/-- Lines 940-943: triggerPressed[RIGHT] = HandTrigger[right] > 0.5f,
updated only when ovr_GetInputState succeeds. -/
def triggerPhase (s : SceneState) (q : Option InputSample) : SceneState :=
  match q with
  | none => s
  | some i => { s with triggerPressedR := decide (i.handTriggerR > 0.5) }

/-- Lines 964-973: if viewFromController the modelview uniform comes
from the inverted hand pose (display only); otherwise, when track is
on, posOnly[3] = modelview[3]. -/
def posOnlyPhase (s : SceneState) (f : FrameInput) : SceneState :=
  if s.viewFromController then s
  else if s.track then { s with posOnly :=
    ⟨s.posOnly.c0, s.posOnly.c1, s.posOnly.c2, f.modelview.c3⟩ }
  else s

/-- Lines 1016-1032: eyePos[eye] is updated only when track is true;
from the hand pose offset by ∓0.0325 in x in view-from-controller
mode, else from the render pose of the eye. -/
def eyePosPhase (s : SceneState) (f : FrameInput) : SceneState :=
  if s.viewFromController then
    if s.track then
      if f.eye = false then
        { s with eyePosL := ⟨f.handPosR.x - 0.0325, f.handPosR.y, f.handPosR.z⟩ }
      else
        { s with eyePosR := ⟨f.handPosR.x + 0.0325, f.handPosR.y, f.handPosR.z⟩ }
    else s
  else
    if s.track then
      if f.eye = false then { s with eyePosL := f.renderPosL }
      else { s with eyePosR := f.renderPosR }
    else s

/-- One frame of ColorCubeScene::render's state mutation, in source
order: checkInput (line 927), the trigger query (lines 940-943),
viewFromController = triggerPressed[RIGHT] (line 945), the posOnly
update (lines 964-973), the eyePos update (lines 1016-1032). -/
def renderStep (s : SceneState) (f : FrameInput) : SceneState :=
  let s1 := checkInput s f.checkQuery
  let s2 := triggerPhase s1 f.renderQuery
  let s3 := { s2 with viewFromController := s2.triggerPressedR }
  let s4 := posOnlyPhase s3 f
  eyePosPhase s4 f

/-- A whole run: fold renderStep over a list of frames. -/
def runScene (s : SceneState) (fs : List FrameInput) : SceneState :=
  fs.foldl renderStep s

/-- Tracking is off after every frame of the run. -/
def alwaysUntracked : SceneState → List FrameInput → Prop
  | _, [] => True
  | s, f :: fs => (renderStep s f).track = false ∧ alwaysUntracked (renderStep s f) fs

/-- Coercion of the rational interaction state into the real geometry. -/
def Vec3.toR (v : Vec3 ℚ) : Vec3 ℝ := ⟨(v.x : ℝ), (v.y : ℝ), (v.z : ℝ)⟩

/-- The uBroken uniform value in effect when the floor quad is drawn
(lines 1162, 1180-1182): set to 0 before the walls, then to 2 exactly
when eye is the right eye and broken is set. -/
def uBrokenAtFloorDraw (eye broken : Bool) : Int :=
  if eye && broken then 2 else 0

/-- The uBroken uniform value in effect when the left and right wall
quads are drawn (line 1162): always 0. -/
def uBrokenAtWallDraw : Int := 0

/-- The modelview uniform installed for the compositor's screen shader
(line 1161): the per-frame head-pose modelview, independent of track. -/
def screenModelview (f : FrameInput) : Mat4 ℚ := f.modelview

end Project3

namespace Project3

/-! ### loadPPM and constructor texture loading

Embedding of loadPPM (main.cpp lines 636-687) and the texture-loading
control flow of the ColorCubeScene constructor (lines 823-871). -/

/-- A PPM file on disk, reduced to what loadPPM inspects: the header
width and height and the number of payload bytes available. -/
structure PPMFile where
  width : Nat
  height : Nat
  payloadBytes : Nat
deriving DecidableEq, Repr

/-- The file system: which paths hold a readable file. -/
def FileSystem : Type := String → Option PPMFile

/-- The result of loadPPM: the returned pixel-data pointer (none for
the null pointer, some n for a buffer of n bytes) and the out
parameters width and height. -/
structure PPMResult where
  data : Option Nat
  width : Nat
  height : Nat
deriving DecidableEq, Repr

/-- loadPPM (lines 636-687): if fopen fails, print an error and return
(0, width = 0, height = 0); if fread cannot fill width*height*3 bytes,
return (0, 0, 0); otherwise return the data with the header
dimensions. -/
def loadPPM (fs : FileSystem) (filename : String) : PPMResult :=
  match fs filename with
  | none => ⟨none, 0, 0⟩
  | some f =>
    if f.payloadBytes < f.width * f.height * 3 then ⟨none, 0, 0⟩
    else ⟨some (f.width * f.height * 3), f.width, f.height⟩

/-- Whether ColorCubeScene's constructor aborts startup.  The
constructor (lines 823-871) calls loadPPM for every texture asset and
passes each result directly to loadBoxTexture/loadQuadTexture with no
check of the returned pointer or dimensions and no throw, so
initialization always proceeds. -/
inductive CtorOutcome where
  | initialized (textureData : List PPMResult)
  | aborted
deriving DecidableEq, Repr

/-- The texture asset paths the constructor loads (lines 825-871). -/
def ctorTexturePaths : List String :=
  ["../Project3-Assets/vr_test_pattern.ppm",
   "../Project3-Assets/left-ppm/px.ppm", "../Project3-Assets/left-ppm/nx.ppm",
   "../Project3-Assets/left-ppm/py.ppm", "../Project3-Assets/left-ppm/ny.ppm",
   "../Project3-Assets/left-ppm/pz.ppm", "../Project3-Assets/left-ppm/nz.ppm",
   "../Project3-Assets/right-ppm/px.ppm", "../Project3-Assets/right-ppm/nx.ppm",
   "../Project3-Assets/right-ppm/py.ppm", "../Project3-Assets/right-ppm/ny.ppm",
   "../Project3-Assets/right-ppm/pz.ppm", "../Project3-Assets/right-ppm/nz.ppm",
   "../Project3-Assets/bsk/SunSetLeft2048.ppm", "../Project3-Assets/bsk/SunSetRight2048.ppm",
   "../Project3-Assets/bsk/SunSetUp2048.ppm", "../Project3-Assets/bsk/SunSetDown2048.ppm",
   "../Project3-Assets/bsk/SunSetFront2048.ppm", "../Project3-Assets/bsk/SunSetBack2048.ppm",
   "../Project3-Assets/left-ppm/nx.ppm", "../Project3-Assets/right-ppm/nx.ppm",
   "../Project3-Assets/left-ppm/pz.ppm", "../Project3-Assets/right-ppm/pz.ppm",
   "../Project3-Assets/left-ppm/ny.ppm", "../Project3-Assets/right-ppm/ny.ppm"]

/-- The constructor's texture loading: every loadPPM result is
consumed unconditionally; there is no branch that aborts. -/
def ctorOutcome (fs : FileSystem) : CtorOutcome :=
  CtorOutcome.initialized (ctorTexturePaths.map (loadPPM fs))

end Project3

namespace Project3

/-! ### Projection lemmas for the interaction phases -/

lemma scalePhase_boxScale (s : SceneState) (i : InputSample) :
    (scalePhase s i).boxScale =
      if i.thumbLX ≠ 0 ∧ 0.01 < s.boxScale + i.thumbLX * 0.01 ∧ s.boxScale + i.thumbLX * 0.01 < 1
      then s.boxScale + i.thumbLX * 0.01 else s.boxScale := by
  simp only [scalePhase]
  split_ifs with h1 h2 h3 h3 <;> first | rfl | (exfalso; tauto)

lemma resetPhase_boxScale (s : SceneState) (i : InputSample) :
    (resetPhase s i).boxScale = if i.buttonLThumb then 0.2 else s.boxScale := by
  simp only [resetPhase]
  split_ifs <;> rfl

lemma translatePhase_boxScale (s : SceneState) (i : InputSample) :
    (translatePhase s i).boxScale = s.boxScale := by
  simp only [translatePhase]
  split_ifs <;> rfl

lemma bPhase_boxScale (s : SceneState) (i : InputSample) :
    (bPhase s i).boxScale = s.boxScale := by
  simp only [bPhase]
  split_ifs <;> rfl

lemma aPhase_boxScale (s : SceneState) (i : InputSample) :
    (aPhase s i).boxScale = s.boxScale := by
  simp only [aPhase]
  split_ifs <;> rfl

lemma xPhase_boxScale (s : SceneState) (i : InputSample) :
    (xPhase s i).boxScale = s.boxScale := by
  simp only [xPhase]
  split_ifs <;> rfl

lemma checkInput_some_boxScale (s : SceneState) (i : InputSample) :
    (checkInput s (some i)).boxScale =
      if i.buttonLThumb then 0.2
      else if i.thumbLX ≠ 0 ∧ 0.01 < s.boxScale + i.thumbLX * 0.01 ∧ s.boxScale + i.thumbLX * 0.01 < 1
      then s.boxScale + i.thumbLX * 0.01 else s.boxScale := by
  simp only [checkInput, xPhase_boxScale, aPhase_boxScale, bPhase_boxScale,
    translatePhase_boxScale, resetPhase_boxScale, scalePhase_boxScale]

lemma renderStep_boxScale (s : SceneState) (f : FrameInput) :
    (renderStep s f).boxScale = (checkInput s f.checkQuery).boxScale := by
  unfold renderStep triggerPhase posOnlyPhase eyePosPhase
  cases f.renderQuery <;> (dsimp only []; split_ifs <;> rfl)

end Project3

namespace Project3

lemma boxScale_inv_step (s : SceneState) (f : FrameInput)
    (h1 : 0.01 < s.boxScale) (h2 : s.boxScale < 1) :
    0.01 < (renderStep s f).boxScale ∧ (renderStep s f).boxScale < 1 := by
  rw [renderStep_boxScale]
  cases hq : f.checkQuery with
  | none => exact ⟨h1, h2⟩
  | some i =>
    rw [checkInput_some_boxScale]
    split_ifs with ha hb
    · constructor <;> norm_num
    · exact ⟨hb.2.1, hb.2.2⟩
    · exact ⟨h1, h2⟩

lemma boxScale_inv_run (fs : List FrameInput) :
    ∀ s : SceneState, 0.01 < s.boxScale → s.boxScale < 1 →
      0.01 < (runScene s fs).boxScale ∧ (runScene s fs).boxScale < 1 := by
  induction fs with
  | nil => intro s h1 h2; exact ⟨h1, h2⟩
  | cons f fs ih =>
    intro s h1 h2
    have hstep := boxScale_inv_step s f h1 h2
    exact ih (renderStep s f) hstep.1 hstep.2

/-- C3: starting from its initial value 0.2, the object scale boxScale
never leaves [0.01, 1.0) over any sequence of frames; a left-thumbstick
x movement adds thumbstick.x * 0.01 only when the result stays strictly
between 0.01 and 1.0; a left-thumbstick button press resets boxScale to
exactly 0.2 (main.cpp lines 1242-1252). -/
theorem boxScale_never_leaves_bounds :
    (∀ fs : List FrameInput,
      0.01 ≤ (runScene initScene fs).boxScale ∧ (runScene initScene fs).boxScale < 1)
    ∧ (∀ (s : SceneState) (lx ly rx ry tr : ℚ) (a b xb : Bool),
        (checkInput s (some ⟨lx, ly, rx, ry, a, b, xb, true, tr⟩)).boxScale = 0.2)
    ∧ (∀ (s : SceneState) (lx ly rx ry tr : ℚ) (a b xb : Bool),
        (checkInput s (some ⟨lx, ly, rx, ry, a, b, xb, false, tr⟩)).boxScale =
          if lx ≠ 0 ∧ 0.01 < s.boxScale + lx * 0.01 ∧ s.boxScale + lx * 0.01 < 1
          then s.boxScale + lx * 0.01 else s.boxScale) := by
  refine ⟨?_, ?_, ?_⟩
  · intro fs
    have hinit1 : (0.01 : ℚ) < initScene.boxScale := by norm_num [initScene]
    have hinit2 : initScene.boxScale < 1 := by norm_num [initScene]
    have h := boxScale_inv_run fs initScene hinit1 hinit2
    exact ⟨le_of_lt h.1, h.2⟩
  · intro s lx ly rx ry tr a b xb
    rw [checkInput_some_boxScale]
    simp
  · intro s lx ly rx ry tr a b xb
    rw [checkInput_some_boxScale]
    simp

end Project3

namespace Project3

lemma scalePhase_eq (s : SceneState) (i : InputSample) :
    scalePhase s i = { s with boxScale :=
      if i.thumbLX ≠ 0 then
        (if 0.01 < s.boxScale + i.thumbLX * 0.01 ∧ s.boxScale + i.thumbLX * 0.01 < 1
         then s.boxScale + i.thumbLX * 0.01 else s.boxScale)
      else s.boxScale } := by
  cases s
  simp only [scalePhase]
  split_ifs <;> rfl

lemma resetPhase_eq (s : SceneState) (i : InputSample) :
    resetPhase s i = { s with boxScale :=
      if i.buttonLThumb = true then 0.2 else s.boxScale } := by
  cases s
  simp only [resetPhase]
  split_ifs <;> simp_all

lemma translatePhase_eq (s : SceneState) (i : InputSample) :
    translatePhase s i = { s with boxtransform :=
      if i.thumbRX ≠ 0 ∨ i.thumbRY ≠ 0 ∨ i.thumbLY ≠ 0
      then (glmTranslate s.boxtransform ⟨i.thumbRX * 0.01, i.thumbRY * 0.01, i.thumbLY * (-0.01)⟩)
      else s.boxtransform } := by
  cases s
  simp only [translatePhase]
  split_ifs <;> rfl

lemma bPhase_eq (s : SceneState) (i : InputSample) :
    bPhase s i = { s with
      track := if i.buttonB = true ∧ s.B_down = false then !s.track else s.track
      B_down := i.buttonB } := by
  cases s with
  | mk bs bt tr dbg brk ad bd xd tp vfc el er po =>
    simp only [bPhase]
    by_cases hb : i.buttonB <;> by_cases hB : bd <;> simp_all

lemma aPhase_eq (s : SceneState) (i : InputSample) :
    aPhase s i = { s with
      debug := if i.buttonA = true ∧ s.A_down = false then !s.debug else s.debug
      A_down := i.buttonA } := by
  cases s with
  | mk bs bt tr dbg brk ad bd xd tp vfc el er po =>
    simp only [aPhase]
    by_cases ha : i.buttonA <;> by_cases hA : ad <;> simp_all

lemma xPhase_eq (s : SceneState) (i : InputSample) :
    xPhase s i = { s with
      broken := if i.buttonX = true ∧ s.X_down = false then !s.broken else s.broken
      X_down := i.buttonX } := by
  cases s with
  | mk bs bt tr dbg brk ad bd xd tp vfc el er po =>
    simp only [xPhase]
    by_cases hx : i.buttonX <;> by_cases hX : xd <;> simp_all

/-- Net effect of one successful checkInput call on the scene state:
boxScale per the scale/reset phases, boxtransform per the translate
phase, each latch tracking its button, and each mode flag toggling
exactly on a released-to-pressed edge. -/
lemma checkInput_some_eq (s : SceneState) (i : InputSample) :
    checkInput s (some i) = { s with
      boxScale :=
        if i.buttonLThumb = true then 0.2
        else if i.thumbLX ≠ 0 then
          (if 0.01 < s.boxScale + i.thumbLX * 0.01 ∧ s.boxScale + i.thumbLX * 0.01 < 1
           then s.boxScale + i.thumbLX * 0.01 else s.boxScale)
        else s.boxScale
      boxtransform :=
        if i.thumbRX ≠ 0 ∨ i.thumbRY ≠ 0 ∨ i.thumbLY ≠ 0
        then glmTranslate s.boxtransform ⟨i.thumbRX * 0.01, i.thumbRY * 0.01, i.thumbLY * (-0.01)⟩
        else s.boxtransform
      track := if i.buttonB = true ∧ s.B_down = false then !s.track else s.track
      B_down := i.buttonB
      debug := if i.buttonA = true ∧ s.A_down = false then !s.debug else s.debug
      A_down := i.buttonA
      broken := if i.buttonX = true ∧ s.X_down = false then !s.broken else s.broken
      X_down := i.buttonX } := by
  simp only [checkInput, scalePhase_eq, resetPhase_eq, translatePhase_eq, bPhase_eq,
    aPhase_eq, xPhase_eq]

end Project3

namespace Project3

/-- Frames in which button A is held (the other buttons arbitrary)
leave debug unchanged and the A latch set, once the A latch is set. -/
lemma checkInput_heldA_stable (is : List InputSample) : ∀ s : SceneState,
    (∀ i ∈ is, i.buttonA = true) → s.A_down = true →
    (is.foldl (fun t i => checkInput t (some i)) s).debug = s.debug
    ∧ (is.foldl (fun t i => checkInput t (some i)) s).A_down = true := by
  induction is with
  | nil => intro s _ hA; exact ⟨rfl, hA⟩
  | cons i rest ih =>
    intro s hall hA
    have hi := hall i (List.mem_cons_self i rest)
    have hrest : ∀ j ∈ rest, j.buttonA = true :=
      fun j hj => hall j (List.mem_cons_of_mem i hj)
    rw [List.foldl_cons]
    have h1 : (checkInput s (some i)).debug = s.debug := by
      rw [checkInput_some_eq]; simp [hA]
    have h2 : (checkInput s (some i)).A_down = true := by
      rw [checkInput_some_eq]; simp [hi]
    have hr := ih (checkInput s (some i)) hrest h2
    exact ⟨hr.1.trans h1, hr.2⟩

/-- Frames in which button B is held (the other buttons arbitrary)
leave track unchanged and the B latch set, once the B latch is set. -/
lemma checkInput_heldB_stable (is : List InputSample) : ∀ s : SceneState,
    (∀ i ∈ is, i.buttonB = true) → s.B_down = true →
    (is.foldl (fun t i => checkInput t (some i)) s).track = s.track
    ∧ (is.foldl (fun t i => checkInput t (some i)) s).B_down = true := by
  induction is with
  | nil => intro s _ hB; exact ⟨rfl, hB⟩
  | cons i rest ih =>
    intro s hall hB
    have hi := hall i (List.mem_cons_self i rest)
    have hrest : ∀ j ∈ rest, j.buttonB = true :=
      fun j hj => hall j (List.mem_cons_of_mem i hj)
    rw [List.foldl_cons]
    have h1 : (checkInput s (some i)).track = s.track := by
      rw [checkInput_some_eq]; simp [hB]
    have h2 : (checkInput s (some i)).B_down = true := by
      rw [checkInput_some_eq]; simp [hi]
    have hr := ih (checkInput s (some i)) hrest h2
    exact ⟨hr.1.trans h1, hr.2⟩

/-- Frames in which button X is held (the other buttons arbitrary)
leave broken unchanged and the X latch set, once the X latch is set. -/
lemma checkInput_heldX_stable (is : List InputSample) : ∀ s : SceneState,
    (∀ i ∈ is, i.buttonX = true) → s.X_down = true →
    (is.foldl (fun t i => checkInput t (some i)) s).broken = s.broken
    ∧ (is.foldl (fun t i => checkInput t (some i)) s).X_down = true := by
  induction is with
  | nil => intro s _ hX; exact ⟨rfl, hX⟩
  | cons i rest ih =>
    intro s hall hX
    have hi := hall i (List.mem_cons_self i rest)
    have hrest : ∀ j ∈ rest, j.buttonX = true :=
      fun j hj => hall j (List.mem_cons_of_mem i hj)
    rw [List.foldl_cons]
    have h1 : (checkInput s (some i)).broken = s.broken := by
      rw [checkInput_some_eq]; simp [hX]
    have h2 : (checkInput s (some i)).X_down = true := by
      rw [checkInput_some_eq]; simp [hi]
    have hr := ih (checkInput s (some i)) hrest h2
    exact ⟨hr.1.trans h1, hr.2⟩

/-- C4: for each edge-triggered button separately — A toggling debug,
B toggling track, X toggling broken — holding that one button pressed
across any nonempty run of successful input frames, with the other
buttons arbitrary in every frame, starting from a released latch,
toggles the corresponding flag exactly once; the latch stays set for
the whole run, so the toggle cannot fire a second time until a frame
with the button released is observed (main.cpp lines 1261-1288). -/
theorem edge_trigger_toggles_once :
    (∀ (s : SceneState) (is : List InputSample), is ≠ [] →
      (∀ i ∈ is, i.buttonA = true) → s.A_down = false →
      (is.foldl (fun t i => checkInput t (some i)) s).debug = !s.debug
      ∧ (is.foldl (fun t i => checkInput t (some i)) s).A_down = true)
    ∧ (∀ (s : SceneState) (is : List InputSample), is ≠ [] →
      (∀ i ∈ is, i.buttonB = true) → s.B_down = false →
      (is.foldl (fun t i => checkInput t (some i)) s).track = !s.track
      ∧ (is.foldl (fun t i => checkInput t (some i)) s).B_down = true)
    ∧ (∀ (s : SceneState) (is : List InputSample), is ≠ [] →
      (∀ i ∈ is, i.buttonX = true) → s.X_down = false →
      (is.foldl (fun t i => checkInput t (some i)) s).broken = !s.broken
      ∧ (is.foldl (fun t i => checkInput t (some i)) s).X_down = true) := by
  refine ⟨?_, ?_, ?_⟩
  · intro s is hne hall hA
    cases is with
    | nil => exact absurd rfl hne
    | cons i rest =>
      have hi := hall i (List.mem_cons_self i rest)
      have hrest : ∀ j ∈ rest, j.buttonA = true :=
        fun j hj => hall j (List.mem_cons_of_mem i hj)
      rw [List.foldl_cons]
      have h1 : (checkInput s (some i)).debug = !s.debug := by
        rw [checkInput_some_eq]; simp [hi, hA]
      have h2 : (checkInput s (some i)).A_down = true := by
        rw [checkInput_some_eq]; simp [hi]
      have hr := checkInput_heldA_stable rest (checkInput s (some i)) hrest h2
      exact ⟨hr.1.trans h1, hr.2⟩
  · intro s is hne hall hB
    cases is with
    | nil => exact absurd rfl hne
    | cons i rest =>
      have hi := hall i (List.mem_cons_self i rest)
      have hrest : ∀ j ∈ rest, j.buttonB = true :=
        fun j hj => hall j (List.mem_cons_of_mem i hj)
      rw [List.foldl_cons]
      have h1 : (checkInput s (some i)).track = !s.track := by
        rw [checkInput_some_eq]; simp [hi, hB]
      have h2 : (checkInput s (some i)).B_down = true := by
        rw [checkInput_some_eq]; simp [hi]
      have hr := checkInput_heldB_stable rest (checkInput s (some i)) hrest h2
      exact ⟨hr.1.trans h1, hr.2⟩
  · intro s is hne hall hX
    cases is with
    | nil => exact absurd rfl hne
    | cons i rest =>
      have hi := hall i (List.mem_cons_self i rest)
      have hrest : ∀ j ∈ rest, j.buttonX = true :=
        fun j hj => hall j (List.mem_cons_of_mem i hj)
      rw [List.foldl_cons]
      have h1 : (checkInput s (some i)).broken = !s.broken := by
        rw [checkInput_some_eq]; simp [hi, hX]
      have h2 : (checkInput s (some i)).X_down = true := by
        rw [checkInput_some_eq]; simp [hi]
      have hr := checkInput_heldX_stable rest (checkInput s (some i)) hrest h2
      exact ⟨hr.1.trans h1, hr.2⟩

end Project3

namespace Project3

/-- The value triggerPressed[RIGHT] holds after the render-side input
query: updated on success, retained on failure. -/
def triggerVal (s : SceneState) (q : Option InputSample) : Bool :=
  match q with
  | none => s.triggerPressedR
  | some i => decide (i.handTriggerR > 0.5)

/-- Net effect of one renderStep on the scene state, relative to the
state s1 left by checkInput: the trigger flag and viewFromController
take the queried trigger value, posOnly's column 3 follows the
modelview only when not in controller view and tracking, and
eyePos[eye] is updated only when tracking. -/
lemma renderStep_eq (s : SceneState) (f : FrameInput) :
    renderStep s f = { checkInput s f.checkQuery with
      triggerPressedR := triggerVal (checkInput s f.checkQuery) f.renderQuery
      viewFromController := triggerVal (checkInput s f.checkQuery) f.renderQuery
      posOnly :=
        if triggerVal (checkInput s f.checkQuery) f.renderQuery = false
            ∧ (checkInput s f.checkQuery).track = true
        then ⟨(checkInput s f.checkQuery).posOnly.c0, (checkInput s f.checkQuery).posOnly.c1,
              (checkInput s f.checkQuery).posOnly.c2, f.modelview.c3⟩
        else (checkInput s f.checkQuery).posOnly
      eyePosL :=
        if (checkInput s f.checkQuery).track = true
            ∧ triggerVal (checkInput s f.checkQuery) f.renderQuery = true ∧ f.eye = false
        then ⟨f.handPosR.x - 0.0325, f.handPosR.y, f.handPosR.z⟩
        else if (checkInput s f.checkQuery).track = true
            ∧ triggerVal (checkInput s f.checkQuery) f.renderQuery = false ∧ f.eye = false
        then f.renderPosL
        else (checkInput s f.checkQuery).eyePosL
      eyePosR :=
        if (checkInput s f.checkQuery).track = true
            ∧ triggerVal (checkInput s f.checkQuery) f.renderQuery = true ∧ f.eye = true
        then ⟨f.handPosR.x + 0.0325, f.handPosR.y, f.handPosR.z⟩
        else if (checkInput s f.checkQuery).track = true
            ∧ triggerVal (checkInput s f.checkQuery) f.renderQuery = false ∧ f.eye = true
        then f.renderPosR
        else (checkInput s f.checkQuery).eyePosR } := by
  unfold renderStep
  generalize checkInput s f.checkQuery = s1
  unfold triggerPhase posOnlyPhase eyePosPhase triggerVal
  cases hq : f.renderQuery with
  | none =>
    cases s1 with
    | mk bs bt tr dbg brk ad bd xd tp vfc el er po =>
      by_cases htr : tr <;> by_cases htp : tp <;> by_cases he : f.eye <;>
        simp [htr, htp, he]
  | some i =>
    cases s1 with
    | mk bs bt tr dbg brk ad bd xd tp vfc el er po =>
      by_cases htr : tr <;> by_cases htp : (0.5 : ℚ) < i.handTriggerR <;>
        by_cases he : f.eye <;> simp [htr, htp, he]

end Project3

namespace Project3

lemma checkInput_eyePosL (s : SceneState) (q : Option InputSample) :
    (checkInput s q).eyePosL = s.eyePosL := by
  cases q with
  | none => rfl
  | some i => rw [checkInput_some_eq]

lemma checkInput_eyePosR (s : SceneState) (q : Option InputSample) :
    (checkInput s q).eyePosR = s.eyePosR := by
  cases q with
  | none => rfl
  | some i => rw [checkInput_some_eq]

lemma checkInput_posOnly (s : SceneState) (q : Option InputSample) :
    (checkInput s q).posOnly = s.posOnly := by
  cases q with
  | none => rfl
  | some i => rw [checkInput_some_eq]

lemma renderStep_track (s : SceneState) (f : FrameInput) :
    (renderStep s f).track = (checkInput s f.checkQuery).track := by
  rw [renderStep_eq]

/-- If a frame ends with tracking off, that frame did not move the
stored eye positions or the position column of posOnly. -/
lemma renderStep_untracked_frozen (s : SceneState) (f : FrameInput)
    (h : (renderStep s f).track = false) :
    (renderStep s f).eyePosL = s.eyePosL ∧ (renderStep s f).eyePosR = s.eyePosR
    ∧ (renderStep s f).posOnly.c3 = s.posOnly.c3 := by
  have htr : (checkInput s f.checkQuery).track = false := by
    rw [← renderStep_track s f]; exact h
  rw [renderStep_eq]
  simp [htr, checkInput_eyePosL, checkInput_eyePosR, checkInput_posOnly]

/-- Concrete sample with only the A button held (B and X released). -/
def aSample : InputSample := ⟨0, 0, 0, 0, true, false, false, false, 0⟩

/-- Concrete sample with only the B button held (A and X released). -/
def bSample : InputSample := ⟨0, 0, 0, 0, false, true, false, false, 0⟩

/-- Concrete sample with only the X button held (A and B released). -/
def xSample : InputSample := ⟨0, 0, 0, 0, false, false, true, false, 0⟩

/-- Concrete frame whose two input queries both fail. -/
def frameNone : FrameInput := ⟨none, none, ⟨0, 0, 0⟩, mat4id, ⟨0, 0, 0⟩, ⟨0, 0, 0⟩, false⟩

/-- Concrete frame whose checkInput query reports a B press. -/
def frameB : FrameInput := ⟨some bSample, none, ⟨0, 0, 0⟩, mat4id, ⟨0, 0, 0⟩, ⟨0, 0, 0⟩, false⟩

/-- The initial scene with tracking already toggled off. -/
def untrackedScene : SceneState := { initScene with track := false }

/-- Witness for C4 at concrete per-button runs: holding only A (B and
X released) for three frames from the initial state toggles debug
exactly once, and likewise holding only B toggles track and holding
only X toggles broken. -/
theorem edge_trigger_toggles_once_witness :
    (([aSample, aSample, aSample].foldl (fun t i => checkInput t (some i)) initScene).debug
        = !initScene.debug
      ∧ ([aSample, aSample, aSample].foldl (fun t i => checkInput t (some i)) initScene).A_down = true)
    ∧ (([bSample, bSample, bSample].foldl (fun t i => checkInput t (some i)) initScene).track
        = !initScene.track
      ∧ ([bSample, bSample, bSample].foldl (fun t i => checkInput t (some i)) initScene).B_down = true)
    ∧ (([xSample, xSample, xSample].foldl (fun t i => checkInput t (some i)) initScene).broken
        = !initScene.broken
      ∧ ([xSample, xSample, xSample].foldl (fun t i => checkInput t (some i)) initScene).X_down = true) :=
  ⟨edge_trigger_toggles_once.1 initScene [aSample, aSample, aSample]
      (by decide) (by decide) rfl,
   edge_trigger_toggles_once.2.1 initScene [bSample, bSample, bSample]
      (by decide) (by decide) rfl,
   edge_trigger_toggles_once.2.2 initScene [xSample, xSample, xSample]
      (by decide) (by decide) rfl⟩

/-- C7: when both of a frame's ovr_GetInputState queries fail, every
piece of interaction state — boxScale, boxtransform, track, debug,
broken, the A/B/X latches and the trigger flag — keeps its previous
value; the step is total, so the frame does not crash (main.cpp lines
1238-1290 and 940-945). -/
theorem input_query_failure_atomic (s : SceneState) (f : FrameInput)
    (h1 : f.checkQuery = none) (h2 : f.renderQuery = none) :
    (renderStep s f).boxScale = s.boxScale
    ∧ (renderStep s f).boxtransform = s.boxtransform
    ∧ (renderStep s f).track = s.track
    ∧ (renderStep s f).debug = s.debug
    ∧ (renderStep s f).broken = s.broken
    ∧ (renderStep s f).A_down = s.A_down
    ∧ (renderStep s f).B_down = s.B_down
    ∧ (renderStep s f).X_down = s.X_down
    ∧ (renderStep s f).triggerPressedR = s.triggerPressedR := by
  rw [renderStep_eq, h1, h2]
  simp [checkInput, triggerVal]

/-- Witness for C7 at a concrete state and frame. -/
theorem input_query_failure_atomic_witness :
    (renderStep initScene frameNone).boxScale = initScene.boxScale
    ∧ (renderStep initScene frameNone).boxtransform = initScene.boxtransform
    ∧ (renderStep initScene frameNone).track = initScene.track
    ∧ (renderStep initScene frameNone).debug = initScene.debug
    ∧ (renderStep initScene frameNone).broken = initScene.broken
    ∧ (renderStep initScene frameNone).A_down = initScene.A_down
    ∧ (renderStep initScene frameNone).B_down = initScene.B_down
    ∧ (renderStep initScene frameNone).X_down = initScene.X_down
    ∧ (renderStep initScene frameNone).triggerPressedR = initScene.triggerPressedR :=
  input_query_failure_atomic initScene frameNone rfl rfl

/-- C9: in a frame that ends with tracking disabled, the stored eye
positions and the position column posOnly[3] keep the values captured
while tracking was last enabled, while the compositor's modelview
uniform is still the fresh per-frame head pose (main.cpp lines
964-973, 1016-1032, 1161). -/
theorem tracking_off_freezes_position (s : SceneState) (f : FrameInput)
    (h : (renderStep s f).track = false) :
    (renderStep s f).eyePosL = s.eyePosL
    ∧ (renderStep s f).eyePosR = s.eyePosR
    ∧ (renderStep s f).posOnly.c3 = s.posOnly.c3
    ∧ screenModelview f = f.modelview := by
  obtain ⟨h1, h2, h3⟩ := renderStep_untracked_frozen s f h
  exact ⟨h1, h2, h3, rfl⟩

/-- Witness for C9 at a concrete state and frame. -/
theorem tracking_off_freezes_position_witness :
    (renderStep untrackedScene frameNone).eyePosL = untrackedScene.eyePosL
    ∧ (renderStep untrackedScene frameNone).eyePosR = untrackedScene.eyePosR
    ∧ (renderStep untrackedScene frameNone).posOnly.c3 = untrackedScene.posOnly.c3
    ∧ screenModelview frameNone = frameNone.modelview :=
  tracking_off_freezes_position untrackedScene frameNone (by decide)

lemma eyePos_zero_of_untracked_run (fs : List FrameInput) : ∀ s : SceneState,
    s.eyePosL = ⟨0, 0, 0⟩ → s.eyePosR = ⟨0, 0, 0⟩ → alwaysUntracked s fs →
    (runScene s fs).eyePosL = ⟨0, 0, 0⟩ ∧ (runScene s fs).eyePosR = ⟨0, 0, 0⟩ := by
  induction fs with
  | nil => intro s h1 h2 _; exact ⟨h1, h2⟩
  | cons f fs ih =>
    intro s h1 h2 hau
    obtain ⟨htr, hau2⟩ := hau
    obtain ⟨p1, p2, _⟩ := renderStep_untracked_frozen s f htr
    exact ih (renderStep s f) (p1.trans h1) (p2.trans h2) hau2

/-- C10: the stored eyePos entries start as the zero vector, a frame
ending with tracking off retains them, and over any run in which
tracking is off after every frame they stay at the origin, so every
off-axis frustum of such a run is the one computed for an eye at
(0,0,0) (main.cpp lines 773-776, 1016-1032). -/
theorem eyePos_defaults_to_origin :
    (initScene.eyePosL = ⟨0, 0, 0⟩ ∧ initScene.eyePosR = ⟨0, 0, 0⟩)
    ∧ (∀ (s : SceneState) (f : FrameInput), (renderStep s f).track = false →
        (renderStep s f).eyePosL = s.eyePosL ∧ (renderStep s f).eyePosR = s.eyePosR)
    ∧ (∀ fs : List FrameInput, alwaysUntracked initScene fs →
        (runScene initScene fs).eyePosL = ⟨0, 0, 0⟩
        ∧ (runScene initScene fs).eyePosR = ⟨0, 0, 0⟩
        ∧ (∀ p0 p1 p3 : Vec3 ℝ,
            quadProjection p0 p1 p3 (Vec3.toR (runScene initScene fs).eyePosL)
              = quadProjection p0 p1 p3 ⟨0, 0, 0⟩
            ∧ quadProjection p0 p1 p3 (Vec3.toR (runScene initScene fs).eyePosR)
              = quadProjection p0 p1 p3 ⟨0, 0, 0⟩)) := by
  refine ⟨⟨rfl, rfl⟩, ?_, ?_⟩
  · intro s f h
    obtain ⟨p1, p2, _⟩ := renderStep_untracked_frozen s f h
    exact ⟨p1, p2⟩
  · intro fs hau
    obtain ⟨h1, h2⟩ := eyePos_zero_of_untracked_run fs initScene rfl rfl hau
    refine ⟨h1, h2, ?_⟩
    intro p0 p1 p3
    rw [h1, h2]
    constructor <;> · congr 1; simp [Vec3.toR]

/-- Witness for C10: one frame whose B press turns tracking off leaves
the eye position at the origin. -/
theorem eyePos_defaults_to_origin_witness :
    (runScene initScene [frameB]).eyePosL = ⟨0, 0, 0⟩ :=
  (eyePos_defaults_to_origin.2.2 [frameB] ⟨by decide, trivial⟩).1

end Project3

namespace Project3

/-- checkInput touches no field other than broken differently when
only the broken flag of the incoming state differs. -/
lemma checkInput_broken_independent (s : SceneState) (q : Option InputSample) (b b' : Bool) :
    (checkInput { s with broken := b } q).boxScale = (checkInput { s with broken := b' } q).boxScale
    ∧ (checkInput { s with broken := b } q).boxtransform = (checkInput { s with broken := b' } q).boxtransform
    ∧ (checkInput { s with broken := b } q).track = (checkInput { s with broken := b' } q).track
    ∧ (checkInput { s with broken := b } q).debug = (checkInput { s with broken := b' } q).debug
    ∧ (checkInput { s with broken := b } q).A_down = (checkInput { s with broken := b' } q).A_down
    ∧ (checkInput { s with broken := b } q).B_down = (checkInput { s with broken := b' } q).B_down
    ∧ (checkInput { s with broken := b } q).X_down = (checkInput { s with broken := b' } q).X_down
    ∧ (checkInput { s with broken := b } q).triggerPressedR
        = (checkInput { s with broken := b' } q).triggerPressedR
    ∧ (checkInput { s with broken := b } q).viewFromController
        = (checkInput { s with broken := b' } q).viewFromController
    ∧ (checkInput { s with broken := b } q).eyePosL = (checkInput { s with broken := b' } q).eyePosL
    ∧ (checkInput { s with broken := b } q).eyePosR = (checkInput { s with broken := b' } q).eyePosR
    ∧ (checkInput { s with broken := b } q).posOnly = (checkInput { s with broken := b' } q).posOnly := by
  cases q with
  | none => exact ⟨rfl, rfl, rfl, rfl, rfl, rfl, rfl, rfl, rfl, rfl, rfl, rfl⟩
  | some i =>
    rw [checkInput_some_eq, checkInput_some_eq]
    exact ⟨rfl, rfl, rfl, rfl, rfl, rfl, rfl, rfl, rfl, rfl, rfl, rfl⟩

/-- C8: toggling broken has no data-model effect — after any frame,
runs differing only in the broken flag agree on boxScale,
boxtransform, the eye positions, posOnly, track and debug, and hence
on every off-axis matrix computed from the stored eye positions; its
only render effect is the uBroken uniform, which is nonzero exactly
for the floor draw of the right eye with broken set, and 0 for every
wall draw (main.cpp lines 1158-1182, 1280-1287). -/
theorem broken_flag_display_only (s : SceneState) (f : FrameInput) (b b' : Bool) :
    ((renderStep { s with broken := b } f).boxScale = (renderStep { s with broken := b' } f).boxScale
    ∧ (renderStep { s with broken := b } f).boxtransform
        = (renderStep { s with broken := b' } f).boxtransform
    ∧ (renderStep { s with broken := b } f).eyePosL = (renderStep { s with broken := b' } f).eyePosL
    ∧ (renderStep { s with broken := b } f).eyePosR = (renderStep { s with broken := b' } f).eyePosR
    ∧ (renderStep { s with broken := b } f).posOnly = (renderStep { s with broken := b' } f).posOnly
    ∧ (renderStep { s with broken := b } f).track = (renderStep { s with broken := b' } f).track
    ∧ (renderStep { s with broken := b } f).debug = (renderStep { s with broken := b' } f).debug)
    ∧ (∀ p0 p1 p3 : Vec3 ℝ,
        quadProjection p0 p1 p3 (Vec3.toR (renderStep { s with broken := b } f).eyePosL)
          = quadProjection p0 p1 p3 (Vec3.toR (renderStep { s with broken := b' } f).eyePosL)
        ∧ quadProjection p0 p1 p3 (Vec3.toR (renderStep { s with broken := b } f).eyePosR)
          = quadProjection p0 p1 p3 (Vec3.toR (renderStep { s with broken := b' } f).eyePosR))
    ∧ (uBrokenAtFloorDraw true true = 2
    ∧ (∀ bb : Bool, uBrokenAtFloorDraw false bb = 0)
    ∧ (∀ ee : Bool, uBrokenAtFloorDraw ee false = 0)
    ∧ uBrokenAtWallDraw = 0) := by
  obtain ⟨hsc, hbt, htr, hdbg, hA, hB, hX, htp, hvfc, heL, heR, hpo⟩ :=
    checkInput_broken_independent s f.checkQuery b b'
  have hmain : (renderStep { s with broken := b } f).boxScale
        = (renderStep { s with broken := b' } f).boxScale
      ∧ (renderStep { s with broken := b } f).boxtransform
        = (renderStep { s with broken := b' } f).boxtransform
      ∧ (renderStep { s with broken := b } f).eyePosL = (renderStep { s with broken := b' } f).eyePosL
      ∧ (renderStep { s with broken := b } f).eyePosR = (renderStep { s with broken := b' } f).eyePosR
      ∧ (renderStep { s with broken := b } f).posOnly = (renderStep { s with broken := b' } f).posOnly
      ∧ (renderStep { s with broken := b } f).track = (renderStep { s with broken := b' } f).track
      ∧ (renderStep { s with broken := b } f).debug = (renderStep { s with broken := b' } f).debug := by
    rw [renderStep_eq, renderStep_eq]
    have htv : triggerVal (checkInput { s with broken := b } f.checkQuery) f.renderQuery
        = triggerVal (checkInput { s with broken := b' } f.checkQuery) f.renderQuery := by
      unfold triggerVal
      cases f.renderQuery with
      | none => exact htp
      | some i => rfl
    refine ⟨hsc, hbt, ?_, ?_, ?_, htr, hdbg⟩
    · simp only [htv, htr, heL]
    · simp only [htv, htr, heR]
    · simp only [htv, htr, hpo]
  refine ⟨hmain, ?_, by decide, by decide, by decide, by decide⟩
  intro p0 p1 p3
  rw [hmain.2.2.1, hmain.2.2.2.1]
  exact ⟨rfl, rfl⟩

end Project3

namespace Project3

/-- A file system with no readable files at all. -/
def emptyFS : FileSystem := fun _ => none

/-- Counterexample to C6: with the texture assets missing, loadPPM
does return the defined not-found result (null data, width = height =
0), yet the ColorCubeScene constructor does not abort — its texture
loading has no failure check, so initialization proceeds with null
image data. -/
theorem missing_texture_not_fatal :
    loadPPM emptyFS "../Project3-Assets/vr_test_pattern.ppm" = ⟨none, 0, 0⟩
    ∧ ctorOutcome emptyFS ≠ CtorOutcome.aborted := by
  constructor
  · rfl
  · intro h
    simp [ctorOutcome] at h

/-- C6 as amended: loadPPM returns the defined not-found result (null
pixel pointer and width = height = 0) whenever the file cannot be
opened, but the ColorCubeScene constructor never detects that result:
for every file system, including ones missing every texture asset,
initialization proceeds (main.cpp lines 636-652, 823-871). -/
theorem loadPPM_notfound_unchecked :
    (∀ (fs : FileSystem) (name : String), fs name = none → loadPPM fs name = ⟨none, 0, 0⟩)
    ∧ (∀ fs : FileSystem, ctorOutcome fs ≠ CtorOutcome.aborted) := by
  constructor
  · intro fs name h
    unfold loadPPM
    rw [h]
  · intro fs h
    simp [ctorOutcome] at h

/-- Witness for the amended C6 at the empty file system. -/
theorem loadPPM_notfound_unchecked_witness :
    loadPPM emptyFS "../Project3-Assets/left-ppm/px.ppm" = ⟨none, 0, 0⟩
    ∧ ctorOutcome emptyFS ≠ CtorOutcome.aborted :=
  ⟨loadPPM_notfound_unchecked.1 emptyFS "../Project3-Assets/left-ppm/px.ppm" rfl,
   loadPPM_notfound_unchecked.2 emptyFS⟩

end Project3

namespace Project3

/-! ### Scalar analysis of the off-axis composite -/

lemma dot_self_nonneg (v : Vec3 ℝ) : 0 ≤ v.dot v := by
  unfold Vec3.dot
  nlinarith [mul_self_nonneg v.x, mul_self_nonneg v.y, mul_self_nonneg v.z]

lemma dot_self_pos (v : Vec3 ℝ) (h : v ≠ ⟨0, 0, 0⟩) : 0 < v.dot v := by
  unfold Vec3.dot
  have hne : v.x ≠ 0 ∨ v.y ≠ 0 ∨ v.z ≠ 0 := by
    by_contra hc
    push_neg at hc
    exact h (by cases v; simp_all)
  rcases hne with hx | hy | hz
  · nlinarith [mul_self_pos.mpr hx, mul_self_nonneg v.y, mul_self_nonneg v.z]
  · nlinarith [mul_self_pos.mpr hy, mul_self_nonneg v.x, mul_self_nonneg v.z]
  · nlinarith [mul_self_pos.mpr hz, mul_self_nonneg v.x, mul_self_nonneg v.y]

lemma sqrt_dot_pos (v : Vec3 ℝ) (h : v ≠ ⟨0, 0, 0⟩) : 0 < Real.sqrt (v.dot v) :=
  Real.sqrt_pos.mpr (dot_self_pos v h)

/-- The components of the composite glm::frustum * M * T applied to a
homogeneous world point, written in eye coordinates (the dot products
of the solver's basis vectors with p - e). -/
lemma clipPoint_formula (p0 p1 p3 e p : Vec3 ℝ) :
    clipPoint p0 p1 p3 e p = ⟨
      2 * 0.001 / (rOf p0 p1 p3 e - lOf p0 p1 p3 e) * ((vrOf p0 p1).dot (p.sub e))
        + (rOf p0 p1 p3 e + lOf p0 p1 p3 e) / (rOf p0 p1 p3 e - lOf p0 p1 p3 e)
          * ((vnOf p0 p1 p3).dot (p.sub e)),
      2 * 0.001 / (tOf p0 p1 p3 e - bOf p0 p1 p3 e) * ((vuOf p0 p3).dot (p.sub e))
        + (tOf p0 p1 p3 e + bOf p0 p1 p3 e) / (tOf p0 p1 p3 e - bOf p0 p1 p3 e)
          * ((vnOf p0 p1 p3).dot (p.sub e)),
      -((1000 + 0.001) / (1000 - 0.001)) * ((vnOf p0 p1 p3).dot (p.sub e))
        - 2 * 1000 * 0.001 / (1000 - 0.001),
      -((vnOf p0 p1 p3).dot (p.sub e))⟩ := by
  unfold clipPoint quadProjection glmFrustum solveM solveT
  unfold Mat4.mul Mat4.mulVec Mat4.transpose Vec4.smul Vec4.add Vec3.dot Vec3.sub
  simp only [Vec4.mk.injEq]
  refine ⟨?_, ?_, ?_, ?_⟩ <;> ring

end Project3

namespace Project3

lemma dot_comm (a b : Vec3 ℝ) : a.dot b = b.dot a := by
  unfold Vec3.dot; ring

/-- A normalized vector dotted with itself before normalization gives
the original vector's euclidean length. -/
lemma gnormalize_dot_self (d : Vec3 ℝ) (h : d ≠ ⟨0, 0, 0⟩) :
    (gnormalize d).dot d = Real.sqrt (d.dot d) := by
  have hq : 0 < d.dot d := dot_self_pos d h
  have hn : 0 < Real.sqrt (d.dot d) := sqrt_dot_pos d h
  have hsq : Real.sqrt (d.dot d) * Real.sqrt (d.dot d) = d.dot d :=
    Real.mul_self_sqrt (le_of_lt hq)
  have key : (gnormalize d).dot d = d.dot d / Real.sqrt (d.dot d) := by
    unfold gnormalize Vec3.dot
    ring
  rw [key, div_eq_iff (ne_of_gt hn)]
  exact hsq.symm

/-- Normalization preserves orthogonality. -/
lemma gnormalize_dot_orth (d w : Vec3 ℝ) (h : d.dot w = 0) : (gnormalize d).dot w = 0 := by
  have key : (gnormalize d).dot w = d.dot w / Real.sqrt (d.dot d) := by
    unfold gnormalize Vec3.dot
    ring
  rw [key, h, zero_div]

/-- The cross product of two normalized vectors is orthogonal to the
first original vector. -/
lemma cross_gnormalize_dot_left (a b : Vec3 ℝ) :
    ((gnormalize a).cross (gnormalize b)).dot a = 0 := by
  unfold gnormalize Vec3.cross Vec3.dot
  ring

/-- The cross product of two normalized vectors is orthogonal to the
second original vector. -/
lemma cross_gnormalize_dot_right (a b : Vec3 ℝ) :
    ((gnormalize a).cross (gnormalize b)).dot b = 0 := by
  unfold gnormalize Vec3.cross Vec3.dot
  ring

/-- The solver's plane normal vn is orthogonal to the right tangent. -/
lemma vn_dot_d1 (p0 p1 p3 : Vec3 ℝ) : (vnOf p0 p1 p3).dot (p1.sub p0) = 0 := by
  unfold vnOf vrOf vuOf
  exact gnormalize_dot_orth _ _ (cross_gnormalize_dot_left _ _)

/-- The solver's plane normal vn is orthogonal to the up tangent. -/
lemma vn_dot_d3 (p0 p1 p3 : Vec3 ℝ) : (vnOf p0 p1 p3).dot (p3.sub p0) = 0 := by
  unfold vnOf vrOf vuOf
  exact gnormalize_dot_orth _ _ (cross_gnormalize_dot_right _ _)

/-- Splitting an eye-to-point vector at an intermediate point. -/
lemma dot_sub_split (v p q e : Vec3 ℝ) :
    v.dot (p.sub e) = v.dot (q.sub e) + v.dot (p.sub q) := by
  unfold Vec3.dot Vec3.sub
  ring

/-- The fourth corner of a parallelogram, relative to corner 0, is the
sum of the two tangents. -/
lemma dot_parallelogram (v p0 p1 p3 : Vec3 ℝ) :
    v.dot (((p1.add p3).sub p0).sub p0) = v.dot (p1.sub p0) + v.dot (p3.sub p0) := by
  unfold Vec3.dot Vec3.sub Vec3.add
  ring

/-- Scalar form of the frustum's first/second row applied at the low
(left or bottom) corner coordinate: the corner lands at minus the
homogeneous w. -/
lemma off_axis_low (A D N : ℝ) (hD : D ≠ 0) (hN : N ≠ 0) :
    2 * 0.001 / ((A + N) * 0.001 / D - A * 0.001 / D) * A
      + ((A + N) * 0.001 / D + A * 0.001 / D) / ((A + N) * 0.001 / D - A * 0.001 / D) * (-D)
    = -D := by
  have hden : (A + N) * 0.001 / D - A * 0.001 / D = N * 0.001 / D := by
    field_simp
    ring
  have hnum : (A + N) * 0.001 / D + A * 0.001 / D = (2 * A + N) * 0.001 / D := by
    field_simp
    ring
  rw [hden, hnum]
  have hm : (0.001 : ℝ) ≠ 0 := by norm_num
  field_simp
  ring

/-- Scalar form of the frustum's first/second row applied at the high
(right or top) corner coordinate: the corner lands at plus the
homogeneous w. -/
lemma off_axis_high (A D N : ℝ) (hD : D ≠ 0) (hN : N ≠ 0) :
    2 * 0.001 / ((A + N) * 0.001 / D - A * 0.001 / D) * (A + N)
      + ((A + N) * 0.001 / D + A * 0.001 / D) / ((A + N) * 0.001 / D - A * 0.001 / D) * (-D)
    = D := by
  have hden : (A + N) * 0.001 / D - A * 0.001 / D = N * 0.001 / D := by
    field_simp
    ring
  have hnum : (A + N) * 0.001 / D + A * 0.001 / D = (2 * A + N) * 0.001 / D := by
    field_simp
    ring
  rw [hden, hnum]
  have hm : (0.001 : ℝ) ≠ 0 := by norm_num
  field_simp
  ring

end Project3

namespace Project3

/-- C1 (amended): for every surface whose four corners form a
rectangle — perpendicular edge tangents, nondegenerate, with
corners[2] = corners[1] + corners[3] - corners[0] — and every eye
position strictly in front of the surface plane (dist > 0), applying
the solver's composite glm::frustum(l,r,b,t,0.001,1000) * M * T
(main.cpp line 1056) to the four corners yields clip coordinates with
positive w whose perspective divide lands exactly on the canonical
quad: corner0 at (-1,-1), corner1 at (1,-1), corner2 at (1,1),
corner3 at (-1,1). -/
theorem off_axis_frustum_exact
    (p0 p1 p2 p3 e : Vec3 ℝ)
    (h_ortho : (p1.sub p0).dot (p3.sub p0) = 0)
    (h_para : p2 = (p1.add p3).sub p0)
    (h_d1 : p1.sub p0 ≠ ⟨0, 0, 0⟩)
    (h_d3 : p3.sub p0 ≠ ⟨0, 0, 0⟩)
    (h_dist : 0 < distOf p0 p1 p3 e) :
    (0 < (clipPoint p0 p1 p3 e p0).w
      ∧ (clipPoint p0 p1 p3 e p0).x / (clipPoint p0 p1 p3 e p0).w = -1
      ∧ (clipPoint p0 p1 p3 e p0).y / (clipPoint p0 p1 p3 e p0).w = -1)
    ∧ (0 < (clipPoint p0 p1 p3 e p1).w
      ∧ (clipPoint p0 p1 p3 e p1).x / (clipPoint p0 p1 p3 e p1).w = 1
      ∧ (clipPoint p0 p1 p3 e p1).y / (clipPoint p0 p1 p3 e p1).w = -1)
    ∧ (0 < (clipPoint p0 p1 p3 e p2).w
      ∧ (clipPoint p0 p1 p3 e p2).x / (clipPoint p0 p1 p3 e p2).w = 1
      ∧ (clipPoint p0 p1 p3 e p2).y / (clipPoint p0 p1 p3 e p2).w = 1)
    ∧ (0 < (clipPoint p0 p1 p3 e p3).w
      ∧ (clipPoint p0 p1 p3 e p3).x / (clipPoint p0 p1 p3 e p3).w = -1
      ∧ (clipPoint p0 p1 p3 e p3).y / (clipPoint p0 p1 p3 e p3).w = 1) := by
  have hD0 : distOf p0 p1 p3 e ≠ 0 := ne_of_gt h_dist
  have hN1ne : Real.sqrt ((p1.sub p0).dot (p1.sub p0)) ≠ 0 :=
    ne_of_gt (sqrt_dot_pos _ h_d1)
  have hN3ne : Real.sqrt ((p3.sub p0).dot (p3.sub p0)) ≠ 0 :=
    ne_of_gt (sqrt_dot_pos _ h_d3)
  -- dot products of the basis with the two tangents
  have hvr1 : (vrOf p0 p1).dot (p1.sub p0) = Real.sqrt ((p1.sub p0).dot (p1.sub p0)) := by
    unfold vrOf
    exact gnormalize_dot_self _ h_d1
  have hvr3 : (vrOf p0 p1).dot (p3.sub p0) = 0 := by
    unfold vrOf
    exact gnormalize_dot_orth _ _ h_ortho
  have hvu3 : (vuOf p0 p3).dot (p3.sub p0) = Real.sqrt ((p3.sub p0).dot (p3.sub p0)) := by
    unfold vuOf
    exact gnormalize_dot_self _ h_d3
  have hvu1 : (vuOf p0 p3).dot (p1.sub p0) = 0 := by
    unfold vuOf
    refine gnormalize_dot_orth _ _ ?_
    rw [dot_comm]
    exact h_ortho
  -- eye coordinates of the four corners
  have hZ0 : (vnOf p0 p1 p3).dot (p0.sub e) = -(distOf p0 p1 p3 e) := by
    unfold distOf vaOf
    ring
  have hZ1 : (vnOf p0 p1 p3).dot (p1.sub e) = -(distOf p0 p1 p3 e) := by
    rw [dot_sub_split _ p1 p0 e, vn_dot_d1, hZ0]
    ring
  have hZ3 : (vnOf p0 p1 p3).dot (p3.sub e) = -(distOf p0 p1 p3 e) := by
    rw [dot_sub_split _ p3 p0 e, vn_dot_d3, hZ0]
    ring
  have hZ2 : (vnOf p0 p1 p3).dot (p2.sub e) = -(distOf p0 p1 p3 e) := by
    rw [h_para, dot_sub_split _ ((p1.add p3).sub p0) p0 e, dot_parallelogram,
      vn_dot_d1, vn_dot_d3, hZ0]
    ring
  have hX1 : (vrOf p0 p1).dot (p1.sub e)
      = (vrOf p0 p1).dot (p0.sub e) + Real.sqrt ((p1.sub p0).dot (p1.sub p0)) := by
    rw [dot_sub_split _ p1 p0 e, hvr1]
  have hX3 : (vrOf p0 p1).dot (p3.sub e) = (vrOf p0 p1).dot (p0.sub e) := by
    rw [dot_sub_split _ p3 p0 e, hvr3, add_zero]
  have hX2 : (vrOf p0 p1).dot (p2.sub e)
      = (vrOf p0 p1).dot (p0.sub e) + Real.sqrt ((p1.sub p0).dot (p1.sub p0)) := by
    rw [h_para, dot_sub_split _ ((p1.add p3).sub p0) p0 e, dot_parallelogram, hvr1, hvr3]
    ring
  have hY1 : (vuOf p0 p3).dot (p1.sub e) = (vuOf p0 p3).dot (p0.sub e) := by
    rw [dot_sub_split _ p1 p0 e, hvu1, add_zero]
  have hY3 : (vuOf p0 p3).dot (p3.sub e)
      = (vuOf p0 p3).dot (p0.sub e) + Real.sqrt ((p3.sub p0).dot (p3.sub p0)) := by
    rw [dot_sub_split _ p3 p0 e, hvu3]
  have hY2 : (vuOf p0 p3).dot (p2.sub e)
      = (vuOf p0 p3).dot (p0.sub e) + Real.sqrt ((p3.sub p0).dot (p3.sub p0)) := by
    rw [h_para, dot_sub_split _ ((p1.add p3).sub p0) p0 e, dot_parallelogram, hvu1, hvu3]
    ring
  -- the frustum offsets in eye-coordinate form
  have hlEq : lOf p0 p1 p3 e
      = (vrOf p0 p1).dot (p0.sub e) * 0.001 / distOf p0 p1 p3 e := rfl
  have hrEq : rOf p0 p1 p3 e
      = ((vrOf p0 p1).dot (p0.sub e) + Real.sqrt ((p1.sub p0).dot (p1.sub p0)))
        * 0.001 / distOf p0 p1 p3 e := by
    have h0 : rOf p0 p1 p3 e
        = (vrOf p0 p1).dot (p1.sub e) * 0.001 / distOf p0 p1 p3 e := rfl
    rw [h0, hX1]
  have hbEq : bOf p0 p1 p3 e
      = (vuOf p0 p3).dot (p0.sub e) * 0.001 / distOf p0 p1 p3 e := rfl
  have htEq : tOf p0 p1 p3 e
      = ((vuOf p0 p3).dot (p0.sub e) + Real.sqrt ((p3.sub p0).dot (p3.sub p0)))
        * 0.001 / distOf p0 p1 p3 e := by
    have h0 : tOf p0 p1 p3 e
        = (vuOf p0 p3).dot (p3.sub e) * 0.001 / distOf p0 p1 p3 e := rfl
    rw [h0, hY3]
  -- homogeneous w of every corner equals dist
  have hw0 : (clipPoint p0 p1 p3 e p0).w = distOf p0 p1 p3 e := by
    rw [clipPoint_formula]; dsimp only; rw [hZ0]; ring
  have hw1 : (clipPoint p0 p1 p3 e p1).w = distOf p0 p1 p3 e := by
    rw [clipPoint_formula]; dsimp only; rw [hZ1]; ring
  have hw2 : (clipPoint p0 p1 p3 e p2).w = distOf p0 p1 p3 e := by
    rw [clipPoint_formula]; dsimp only; rw [hZ2]; ring
  have hw3 : (clipPoint p0 p1 p3 e p3).w = distOf p0 p1 p3 e := by
    rw [clipPoint_formula]; dsimp only; rw [hZ3]; ring
  -- clip x of every corner
  have hx0 : (clipPoint p0 p1 p3 e p0).x = -(distOf p0 p1 p3 e) := by
    rw [clipPoint_formula]; dsimp only; rw [hZ0, hlEq, hrEq]
    exact off_axis_low _ _ _ hD0 hN1ne
  have hx1 : (clipPoint p0 p1 p3 e p1).x = distOf p0 p1 p3 e := by
    rw [clipPoint_formula]; dsimp only; rw [hZ1, hX1, hlEq, hrEq]
    exact off_axis_high _ _ _ hD0 hN1ne
  have hx2 : (clipPoint p0 p1 p3 e p2).x = distOf p0 p1 p3 e := by
    rw [clipPoint_formula]; dsimp only; rw [hZ2, hX2, hlEq, hrEq]
    exact off_axis_high _ _ _ hD0 hN1ne
  have hx3 : (clipPoint p0 p1 p3 e p3).x = -(distOf p0 p1 p3 e) := by
    rw [clipPoint_formula]; dsimp only; rw [hZ3, hX3, hlEq, hrEq]
    exact off_axis_low _ _ _ hD0 hN1ne
  -- clip y of every corner
  have hy0 : (clipPoint p0 p1 p3 e p0).y = -(distOf p0 p1 p3 e) := by
    rw [clipPoint_formula]; dsimp only; rw [hZ0, hbEq, htEq]
    exact off_axis_low _ _ _ hD0 hN3ne
  have hy1 : (clipPoint p0 p1 p3 e p1).y = -(distOf p0 p1 p3 e) := by
    rw [clipPoint_formula]; dsimp only; rw [hZ1, hY1, hbEq, htEq]
    exact off_axis_low _ _ _ hD0 hN3ne
  have hy2 : (clipPoint p0 p1 p3 e p2).y = distOf p0 p1 p3 e := by
    rw [clipPoint_formula]; dsimp only; rw [hZ2, hY2, hbEq, htEq]
    exact off_axis_high _ _ _ hD0 hN3ne
  have hy3 : (clipPoint p0 p1 p3 e p3).y = distOf p0 p1 p3 e := by
    rw [clipPoint_formula]; dsimp only; rw [hZ3, hY3, hbEq, htEq]
    exact off_axis_high _ _ _ hD0 hN3ne
  refine ⟨⟨?_, ?_, ?_⟩, ⟨?_, ?_, ?_⟩, ⟨?_, ?_, ?_⟩, ⟨?_, ?_, ?_⟩⟩
  · rw [hw0]; exact h_dist
  · rw [hx0, hw0, neg_div, div_self hD0]
  · rw [hy0, hw0, neg_div, div_self hD0]
  · rw [hw1]; exact h_dist
  · rw [hx1, hw1, div_self hD0]
  · rw [hy1, hw1, neg_div, div_self hD0]
  · rw [hw2]; exact h_dist
  · rw [hx2, hw2, div_self hD0]
  · rw [hy2, hw2, div_self hD0]
  · rw [hw3]; exact h_dist
  · rw [hx3, hw3, neg_div, div_self hD0]
  · rw [hy3, hw3, div_self hD0]

end Project3

namespace Project3

/-- Witness for C1 at the unit rectangle (0,0,0),(1,0,0),(1,1,0),(0,1,0)
with the eye at (0,0,5): all four corners land on the canonical quad. -/
theorem off_axis_frustum_exact_witness :
    (0 < (clipPoint ⟨0, 0, 0⟩ ⟨1, 0, 0⟩ ⟨0, 1, 0⟩ ⟨0, 0, 5⟩ ⟨0, 0, 0⟩).w
      ∧ (clipPoint ⟨0, 0, 0⟩ ⟨1, 0, 0⟩ ⟨0, 1, 0⟩ ⟨0, 0, 5⟩ ⟨0, 0, 0⟩).x
          / (clipPoint ⟨0, 0, 0⟩ ⟨1, 0, 0⟩ ⟨0, 1, 0⟩ ⟨0, 0, 5⟩ ⟨0, 0, 0⟩).w = -1
      ∧ (clipPoint ⟨0, 0, 0⟩ ⟨1, 0, 0⟩ ⟨0, 1, 0⟩ ⟨0, 0, 5⟩ ⟨0, 0, 0⟩).y
          / (clipPoint ⟨0, 0, 0⟩ ⟨1, 0, 0⟩ ⟨0, 1, 0⟩ ⟨0, 0, 5⟩ ⟨0, 0, 0⟩).w = -1)
    ∧ (0 < (clipPoint ⟨0, 0, 0⟩ ⟨1, 0, 0⟩ ⟨0, 1, 0⟩ ⟨0, 0, 5⟩ ⟨1, 0, 0⟩).w
      ∧ (clipPoint ⟨0, 0, 0⟩ ⟨1, 0, 0⟩ ⟨0, 1, 0⟩ ⟨0, 0, 5⟩ ⟨1, 0, 0⟩).x
          / (clipPoint ⟨0, 0, 0⟩ ⟨1, 0, 0⟩ ⟨0, 1, 0⟩ ⟨0, 0, 5⟩ ⟨1, 0, 0⟩).w = 1
      ∧ (clipPoint ⟨0, 0, 0⟩ ⟨1, 0, 0⟩ ⟨0, 1, 0⟩ ⟨0, 0, 5⟩ ⟨1, 0, 0⟩).y
          / (clipPoint ⟨0, 0, 0⟩ ⟨1, 0, 0⟩ ⟨0, 1, 0⟩ ⟨0, 0, 5⟩ ⟨1, 0, 0⟩).w = -1)
    ∧ (0 < (clipPoint ⟨0, 0, 0⟩ ⟨1, 0, 0⟩ ⟨0, 1, 0⟩ ⟨0, 0, 5⟩ ⟨1, 1, 0⟩).w
      ∧ (clipPoint ⟨0, 0, 0⟩ ⟨1, 0, 0⟩ ⟨0, 1, 0⟩ ⟨0, 0, 5⟩ ⟨1, 1, 0⟩).x
          / (clipPoint ⟨0, 0, 0⟩ ⟨1, 0, 0⟩ ⟨0, 1, 0⟩ ⟨0, 0, 5⟩ ⟨1, 1, 0⟩).w = 1
      ∧ (clipPoint ⟨0, 0, 0⟩ ⟨1, 0, 0⟩ ⟨0, 1, 0⟩ ⟨0, 0, 5⟩ ⟨1, 1, 0⟩).y
          / (clipPoint ⟨0, 0, 0⟩ ⟨1, 0, 0⟩ ⟨0, 1, 0⟩ ⟨0, 0, 5⟩ ⟨1, 1, 0⟩).w = 1)
    ∧ (0 < (clipPoint ⟨0, 0, 0⟩ ⟨1, 0, 0⟩ ⟨0, 1, 0⟩ ⟨0, 0, 5⟩ ⟨0, 1, 0⟩).w
      ∧ (clipPoint ⟨0, 0, 0⟩ ⟨1, 0, 0⟩ ⟨0, 1, 0⟩ ⟨0, 0, 5⟩ ⟨0, 1, 0⟩).x
          / (clipPoint ⟨0, 0, 0⟩ ⟨1, 0, 0⟩ ⟨0, 1, 0⟩ ⟨0, 0, 5⟩ ⟨0, 1, 0⟩).w = -1
      ∧ (clipPoint ⟨0, 0, 0⟩ ⟨1, 0, 0⟩ ⟨0, 1, 0⟩ ⟨0, 0, 5⟩ ⟨0, 1, 0⟩).y
          / (clipPoint ⟨0, 0, 0⟩ ⟨1, 0, 0⟩ ⟨0, 1, 0⟩ ⟨0, 0, 5⟩ ⟨0, 1, 0⟩).w = 1) :=
  off_axis_frustum_exact ⟨0, 0, 0⟩ ⟨1, 0, 0⟩ ⟨1, 1, 0⟩ ⟨0, 1, 0⟩ ⟨0, 0, 5⟩
    (by simp only [Vec3.sub, Vec3.dot]; norm_num)
    (by simp only [Vec3.add, Vec3.sub, Vec3.mk.injEq]; norm_num)
    (by simp only [Vec3.sub, ne_eq, Vec3.mk.injEq]; norm_num)
    (by simp only [Vec3.sub, ne_eq, Vec3.mk.injEq]; norm_num)
    (by simp only [distOf, vnOf, vrOf, vuOf, gnormalize, vaOf,
          Vec3.cross, Vec3.dot, Vec3.sub]
        norm_num)

/-- Counterexample to C1 as stated: the quad with corners (0,0,0),
(1,0,0), (2,2,0), (0,1,0) is coplanar (its fourth corner lies in the
plane spanned by the tangents), non-degenerate (nonzero cross product
of the tangents), and the eye (0,0,5) is strictly in front
(dist = 5 > 0), yet the composite maps corner 2 to (3, 3) after
perspective divide — neither coordinate is ±1, so the surface does not
exactly fill the canonical quad for every coplanar non-degenerate
surface. -/
theorem off_axis_exactness_fails_for_skew_quad :
    ((⟨1, 0, 0⟩ : Vec3 ℝ).sub ⟨0, 0, 0⟩).cross ((⟨0, 1, 0⟩ : Vec3 ℝ).sub ⟨0, 0, 0⟩) ≠ ⟨0, 0, 0⟩
    ∧ (vnOf ⟨0, 0, 0⟩ ⟨1, 0, 0⟩ ⟨0, 1, 0⟩).dot ((⟨2, 2, 0⟩ : Vec3 ℝ).sub ⟨0, 0, 0⟩) = 0
    ∧ 0 < distOf ⟨0, 0, 0⟩ ⟨1, 0, 0⟩ ⟨0, 1, 0⟩ ⟨0, 0, 5⟩
    ∧ (clipPoint ⟨0, 0, 0⟩ ⟨1, 0, 0⟩ ⟨0, 1, 0⟩ ⟨0, 0, 5⟩ ⟨2, 2, 0⟩).x
        / (clipPoint ⟨0, 0, 0⟩ ⟨1, 0, 0⟩ ⟨0, 1, 0⟩ ⟨0, 0, 5⟩ ⟨2, 2, 0⟩).w = 3
    ∧ (clipPoint ⟨0, 0, 0⟩ ⟨1, 0, 0⟩ ⟨0, 1, 0⟩ ⟨0, 0, 5⟩ ⟨2, 2, 0⟩).y
        / (clipPoint ⟨0, 0, 0⟩ ⟨1, 0, 0⟩ ⟨0, 1, 0⟩ ⟨0, 0, 5⟩ ⟨2, 2, 0⟩).w = 3
    ∧ (clipPoint ⟨0, 0, 0⟩ ⟨1, 0, 0⟩ ⟨0, 1, 0⟩ ⟨0, 0, 5⟩ ⟨2, 2, 0⟩).x
        / (clipPoint ⟨0, 0, 0⟩ ⟨1, 0, 0⟩ ⟨0, 1, 0⟩ ⟨0, 0, 5⟩ ⟨2, 2, 0⟩).w ≠ 1
    ∧ (clipPoint ⟨0, 0, 0⟩ ⟨1, 0, 0⟩ ⟨0, 1, 0⟩ ⟨0, 0, 5⟩ ⟨2, 2, 0⟩).x
        / (clipPoint ⟨0, 0, 0⟩ ⟨1, 0, 0⟩ ⟨0, 1, 0⟩ ⟨0, 0, 5⟩ ⟨2, 2, 0⟩).w ≠ -1
    ∧ (clipPoint ⟨0, 0, 0⟩ ⟨1, 0, 0⟩ ⟨0, 1, 0⟩ ⟨0, 0, 5⟩ ⟨2, 2, 0⟩).y
        / (clipPoint ⟨0, 0, 0⟩ ⟨1, 0, 0⟩ ⟨0, 1, 0⟩ ⟨0, 0, 5⟩ ⟨2, 2, 0⟩).w ≠ 1
    ∧ (clipPoint ⟨0, 0, 0⟩ ⟨1, 0, 0⟩ ⟨0, 1, 0⟩ ⟨0, 0, 5⟩ ⟨2, 2, 0⟩).y
        / (clipPoint ⟨0, 0, 0⟩ ⟨1, 0, 0⟩ ⟨0, 1, 0⟩ ⟨0, 0, 5⟩ ⟨2, 2, 0⟩).w ≠ -1 := by
  have hx : (clipPoint ⟨0, 0, 0⟩ ⟨1, 0, 0⟩ ⟨0, 1, 0⟩ ⟨0, 0, 5⟩ ⟨2, 2, 0⟩).x
      / (clipPoint ⟨0, 0, 0⟩ ⟨1, 0, 0⟩ ⟨0, 1, 0⟩ ⟨0, 0, 5⟩ ⟨2, 2, 0⟩).w = 3 := by
    unfold clipPoint quadProjection glmFrustum solveM solveT lOf rOf bOf tOf distOf
    unfold vnOf vrOf vuOf gnormalize vaOf vbOf vcOf
    unfold Mat4.mul Mat4.mulVec Mat4.transpose Vec4.smul Vec4.add Vec3.cross Vec3.dot Vec3.sub
    norm_num
  have hy : (clipPoint ⟨0, 0, 0⟩ ⟨1, 0, 0⟩ ⟨0, 1, 0⟩ ⟨0, 0, 5⟩ ⟨2, 2, 0⟩).y
      / (clipPoint ⟨0, 0, 0⟩ ⟨1, 0, 0⟩ ⟨0, 1, 0⟩ ⟨0, 0, 5⟩ ⟨2, 2, 0⟩).w = 3 := by
    unfold clipPoint quadProjection glmFrustum solveM solveT lOf rOf bOf tOf distOf
    unfold vnOf vrOf vuOf gnormalize vaOf vbOf vcOf
    unfold Mat4.mul Mat4.mulVec Mat4.transpose Vec4.smul Vec4.add Vec3.cross Vec3.dot Vec3.sub
    norm_num
  refine ⟨?_, ?_, ?_, hx, hy, ?_, ?_, ?_, ?_⟩
  · simp only [Vec3.sub, Vec3.cross, ne_eq, Vec3.mk.injEq]
    norm_num
  · simp only [vnOf, vrOf, vuOf, gnormalize, Vec3.cross, Vec3.dot, Vec3.sub]
    norm_num
  · simp only [distOf, vnOf, vrOf, vuOf, gnormalize, vaOf,
      Vec3.cross, Vec3.dot, Vec3.sub]
    norm_num
  · rw [hx]; norm_num
  · rw [hx]; norm_num
  · rw [hy]; norm_num
  · rw [hy]; norm_num

end Project3

namespace Project3

/-- Counterexample to C2 as stated: for the unit quad centered at the
origin facing +Z with the eye at (0,0,5) the solver computes
bottom = -0.0001 and top = 0.0001, so bottom = top is false (the true
symmetry is bottom = -top). -/
theorem bottom_eq_top_fails :
    bOf ⟨-(1/2), -(1/2), 0⟩ ⟨1/2, -(1/2), 0⟩ ⟨-(1/2), 1/2, 0⟩ ⟨0, 0, 5⟩
      = -(1/10000)
    ∧ tOf ⟨-(1/2), -(1/2), 0⟩ ⟨1/2, -(1/2), 0⟩ ⟨-(1/2), 1/2, 0⟩ ⟨0, 0, 5⟩
      = 1/10000
    ∧ bOf ⟨-(1/2), -(1/2), 0⟩ ⟨1/2, -(1/2), 0⟩ ⟨-(1/2), 1/2, 0⟩ ⟨0, 0, 5⟩
      ≠ tOf ⟨-(1/2), -(1/2), 0⟩ ⟨1/2, -(1/2), 0⟩ ⟨-(1/2), 1/2, 0⟩ ⟨0, 0, 5⟩ := by
  have hb : bOf ⟨-(1/2), -(1/2), 0⟩ ⟨1/2, -(1/2), 0⟩ ⟨-(1/2), 1/2, 0⟩ ⟨0, 0, 5⟩
      = -(1/10000) := by
    simp only [bOf, distOf, vnOf, vrOf, vuOf, gnormalize, vaOf,
      Vec3.cross, Vec3.dot, Vec3.sub]
    norm_num
  have ht : tOf ⟨-(1/2), -(1/2), 0⟩ ⟨1/2, -(1/2), 0⟩ ⟨-(1/2), 1/2, 0⟩ ⟨0, 0, 5⟩
      = 1/10000 := by
    simp only [tOf, distOf, vnOf, vrOf, vuOf, gnormalize, vaOf, vcOf,
      Vec3.cross, Vec3.dot, Vec3.sub]
    norm_num
  refine ⟨hb, ht, ?_⟩
  rw [hb, ht]
  norm_num

/-- C2 (amended): for the unit quad centered at the origin facing +Z
with the eye at (0,0,5), the solver's frustum is symmetric in the
sense left = -right and bottom = -top; moving the eye to (2,0,5) makes
the horizontal offsets asymmetric, with |left| ≠ |right|
(main.cpp lines 1037-1048). -/
theorem unit_quad_frustum_symmetry :
    lOf ⟨-(1/2), -(1/2), 0⟩ ⟨1/2, -(1/2), 0⟩ ⟨-(1/2), 1/2, 0⟩ ⟨0, 0, 5⟩
      = -(rOf ⟨-(1/2), -(1/2), 0⟩ ⟨1/2, -(1/2), 0⟩ ⟨-(1/2), 1/2, 0⟩ ⟨0, 0, 5⟩)
    ∧ bOf ⟨-(1/2), -(1/2), 0⟩ ⟨1/2, -(1/2), 0⟩ ⟨-(1/2), 1/2, 0⟩ ⟨0, 0, 5⟩
      = -(tOf ⟨-(1/2), -(1/2), 0⟩ ⟨1/2, -(1/2), 0⟩ ⟨-(1/2), 1/2, 0⟩ ⟨0, 0, 5⟩)
    ∧ |lOf ⟨-(1/2), -(1/2), 0⟩ ⟨1/2, -(1/2), 0⟩ ⟨-(1/2), 1/2, 0⟩ ⟨2, 0, 5⟩|
      ≠ |rOf ⟨-(1/2), -(1/2), 0⟩ ⟨1/2, -(1/2), 0⟩ ⟨-(1/2), 1/2, 0⟩ ⟨2, 0, 5⟩| := by
  refine ⟨?_, ?_, ?_⟩
  · simp only [lOf, rOf, distOf, vnOf, vrOf, vuOf, gnormalize, vaOf, vbOf,
      Vec3.cross, Vec3.dot, Vec3.sub]
    norm_num
  · simp only [bOf, tOf, distOf, vnOf, vrOf, vuOf, gnormalize, vaOf, vcOf,
      Vec3.cross, Vec3.dot, Vec3.sub]
    norm_num
  · have hl : lOf ⟨-(1/2), -(1/2), 0⟩ ⟨1/2, -(1/2), 0⟩ ⟨-(1/2), 1/2, 0⟩ ⟨2, 0, 5⟩
        = -(1/2000) := by
      simp only [lOf, distOf, vnOf, vrOf, vuOf, gnormalize, vaOf, vbOf,
        Vec3.cross, Vec3.dot, Vec3.sub]
      norm_num
    have hr : rOf ⟨-(1/2), -(1/2), 0⟩ ⟨1/2, -(1/2), 0⟩ ⟨-(1/2), 1/2, 0⟩ ⟨2, 0, 5⟩
        = -(3/10000) := by
      simp only [rOf, distOf, vnOf, vrOf, vuOf, gnormalize, vaOf, vbOf,
        Vec3.cross, Vec3.dot, Vec3.sub]
      norm_num
    rw [hl, hr]
    rw [abs_of_nonpos, abs_of_nonpos] <;> norm_num

/-- Counterexample to C5: at a surface plane containing the eye the
solver's dist is exactly 0, the corner dot products it is about to
divide differ (-5 and -4), yet the code performs the divisions anyway:
nothing clamps the distance, skips the pass, or raises an error, and
in the exact-arithmetic embedding (division by zero yielding zero) the
computed offsets collapse to the degenerate l = r — which no
epsilon-clamped divisor could produce from distinct numerators. -/
theorem dist_zero_not_guarded :
    distOf ⟨0, 0, 0⟩ ⟨1, 0, 0⟩ ⟨0, 1, 0⟩ ⟨5, 5, 0⟩ = 0
    ∧ (vrOf ⟨0, 0, 0⟩ ⟨1, 0, 0⟩).dot (vaOf ⟨0, 0, 0⟩ ⟨5, 5, 0⟩) = -5
    ∧ (vrOf ⟨0, 0, 0⟩ ⟨1, 0, 0⟩).dot (vbOf ⟨1, 0, 0⟩ ⟨5, 5, 0⟩) = -4
    ∧ lOf ⟨0, 0, 0⟩ ⟨1, 0, 0⟩ ⟨0, 1, 0⟩ ⟨5, 5, 0⟩
        = rOf ⟨0, 0, 0⟩ ⟨1, 0, 0⟩ ⟨0, 1, 0⟩ ⟨5, 5, 0⟩ := by
  have hd : distOf ⟨0, 0, 0⟩ ⟨1, 0, 0⟩ ⟨0, 1, 0⟩ ⟨5, 5, 0⟩ = 0 := by
    simp only [distOf, vnOf, vrOf, vuOf, gnormalize, vaOf,
      Vec3.cross, Vec3.dot, Vec3.sub]
    norm_num
  refine ⟨hd, ?_, ?_, ?_⟩
  · simp only [vrOf, gnormalize, vaOf, Vec3.dot, Vec3.sub]
    norm_num
  · simp only [vrOf, gnormalize, vbOf, Vec3.dot, Vec3.sub]
    norm_num
  · unfold lOf rOf
    rw [hd]
    simp [div_zero]

/-- C5 (amended): the frustum computation does not guard its dist > 0
precondition — l, r, b, t are computed by dividing by dist
unconditionally (main.cpp lines 1044-1048); whenever dist = 0 the
divisions are performed with a zero divisor, and in the
real-arithmetic embedding (where x / 0 = 0) all four offsets collapse
to 0, a degenerate frustum, with no clamp, skip, or error. -/
theorem dist_division_unconditional (p0 p1 p3 e : Vec3 ℝ)
    (h : distOf p0 p1 p3 e = 0) :
    lOf p0 p1 p3 e = 0 ∧ rOf p0 p1 p3 e = 0
    ∧ bOf p0 p1 p3 e = 0 ∧ tOf p0 p1 p3 e = 0 := by
  unfold lOf rOf bOf tOf
  rw [h]
  simp [div_zero]

/-- Witness for the amended C5 at a concrete in-plane eye. -/
theorem dist_division_unconditional_witness :
    distOf ⟨0, 0, 0⟩ ⟨1, 0, 0⟩ ⟨0, 1, 0⟩ ⟨5, 5, 0⟩ = 0
    ∧ (lOf ⟨0, 0, 0⟩ ⟨1, 0, 0⟩ ⟨0, 1, 0⟩ ⟨5, 5, 0⟩ = 0
      ∧ rOf ⟨0, 0, 0⟩ ⟨1, 0, 0⟩ ⟨0, 1, 0⟩ ⟨5, 5, 0⟩ = 0
      ∧ bOf ⟨0, 0, 0⟩ ⟨1, 0, 0⟩ ⟨0, 1, 0⟩ ⟨5, 5, 0⟩ = 0
      ∧ tOf ⟨0, 0, 0⟩ ⟨1, 0, 0⟩ ⟨0, 1, 0⟩ ⟨5, 5, 0⟩ = 0) := by
  have hd : distOf ⟨0, 0, 0⟩ ⟨1, 0, 0⟩ ⟨0, 1, 0⟩ ⟨5, 5, 0⟩ = 0 := by
    simp only [distOf, vnOf, vrOf, vuOf, gnormalize, vaOf,
      Vec3.cross, Vec3.dot, Vec3.sub]
    norm_num
  exact ⟨hd, dist_division_unconditional _ _ _ _ hd⟩

end Project3
